import Mathlib

/-!
Verification of the formspec element-signature scraper (make_elements.py).

The script is embedded shallowly: Python strings are `List Char`, Python
tuples `(name, type)` are `Item.param`, Python lists inside a shape are
`Item.group`, and the variadic pair `(unit, '...')` is `Item.variadic`.
Fallible code (assert statements, IndexError, AttributeError, ValueError)
is modelled with `Except Err`.  Recursion that Python bounds only through
data reachability is given explicit fuel, always called with enough fuel.
-/

/-- Python strings, modelled as lists of characters (the document is ASCII). -/
abbrev PyStr := List Char

/-- The six semantic type tags produced by the classifier `_known`. -/
inductive PType where
  | number
  | boolean
  | fullscreen
  | table
  | null
  | string
deriving DecidableEq, Repr

/-- One element of a Shape: a flat parameter tuple, a bracketed group
(a Python list), or a variadic tail `(unit, '...')`. -/
inductive Item where
  | param : PyStr → PType → Item
  | group : List Item → Item
  | variadic : Item → Item
deriving Repr

/-- Structural equality test for `Item` (deriving cannot handle the nested
occurrence in `group`, so it is written out together with its list version). -/
def item_beq : Item → Item → Bool
  | .param n t, .param m s => n == m && t == s
  | .group a, .group b => go a b
  | .variadic a, .variadic b => item_beq a b
  | _, _ => false
where go : List Item → List Item → Bool
  | [], [] => true
  | x :: xs, y :: ys => item_beq x y && go xs ys
  | _, _ => false

theorem item_beq_iff : ∀ a b : Item, item_beq a b = true ↔ a = b := by
  intro a
  induction a using Item.rec (motive_2 := fun l => ∀ m : List Item, item_beq.go l m = true ↔ l = m) with
  | param n t => intro b; cases b <;> simp [item_beq]
  | group l ih => intro b; cases b <;> simp [item_beq, ih]
  | variadic a ih => intro b; cases b <;> simp [item_beq, ih]
  | nil => rename_i m; cases m <;> simp [item_beq.go]
  | cons x xs ihx ihxs => rename_i m; cases m <;> simp [item_beq.go, ihx, ihxs]

instance : DecidableEq Item := fun a b =>
  decidable_of_iff (item_beq a b = true) (item_beq_iff a b)

instance {ε α : Type} [DecidableEq ε] [DecidableEq α] : DecidableEq (Except ε α)
  | .error e, .error f => decidable_of_iff (e = f) (by simp)
  | .ok x, .ok y => decidable_of_iff (x = y) (by simp)
  | .error _, .ok _ => isFalse (fun h => Except.noConfusion h)
  | .ok _, .error _ => isFalse (fun h => Except.noConfusion h)

/-- Characters stripped by Python `str.strip()` (whitespace). -/
def is_py_space (c : Char) : Bool :=
  c == ' ' || c == '\t' || c == '\n' || c == '\r' || c == '\x0b' || c == '\x0c'

/-- Python `s.strip()`. -/
def strip (l : PyStr) : PyStr :=
  ((l.dropWhile is_py_space).reverse.dropWhile is_py_space).reverse

/-- Characters stripped by `str.strip('<>')`. -/
def is_angle (c : Char) : Bool := c == '<' || c == '>'

/-- Python `s.strip('<>')`. -/
def strip_angle (l : PyStr) : PyStr :=
  ((l.dropWhile is_angle).reverse.dropWhile is_angle).reverse

/-- Python `s.lower()` (ASCII case only, matching the source document). -/
def lower (l : PyStr) : PyStr := l.map Char.toLower

/-- Python `s.replace(' ', '_')`. -/
def replace_space (l : PyStr) : PyStr := l.map (fun c => if c == ' ' then '_' else c)

/-- The `_aliases` substitution table. -/
def aliases (l : PyStr) : PyStr :=
  if l = "type".toList then "elem_type".toList
  else if l = "cell".toList then "cells".toList
  else l

/-- Names classified as `number` in `_make_known`. -/
def number_names : List PyStr :=
  ["x".toList, "y".toList, "w".toList, "h".toList, "selected_idx".toList,
   "version".toList, "starting_item_index".toList, "scroll_factor".toList,
   "frame_count".toList, "frame_duration".toList, "frame_start".toList]

/-- Names classified as `boolean` in `_make_known`. -/
def boolean_names : List PyStr :=
  ["auto_clip".toList, "fixed_size".toList, "transparent".toList,
   "draw_border".toList, "bool".toList, "noclip".toList, "drawborder".toList,
   "selected".toList, "force".toList, "close_on_enter".toList,
   "continuous".toList, "mouse_control".toList]

/-- Names classified as `fullscreen` in `_make_known`. -/
def fullscreen_names : List PyStr := ["fullscreen".toList]

/-- Names classified as `table` in `_make_known`. -/
def table_names : List PyStr := ["param".toList, "opt".toList, "prop".toList]

/-- Names classified as `null` in `_make_known`. -/
def null_names : List PyStr := [[]]

/-- The classifier `_known.get(param, 'string')`. -/
def known (name : PyStr) : PType :=
  if name ∈ number_names then .number
  else if name ∈ boolean_names then .boolean
  else if name ∈ fullscreen_names then .fullscreen
  else if name ∈ table_names then .table
  else if name ∈ null_names then .null
  else .string

/-- Python `l.rsplit(sep, 1)[0]` for a one-character separator. -/
def rsplit1_head (sep : Char) (l : PyStr) : PyStr :=
  match l.reverse.dropWhile (fun c => c != sep) with
  | [] => l
  | _ :: rest => rest.reverse

/-- Python `s.rstrip('_')`. -/
def rstrip_underscore (l : PyStr) : PyStr :=
  (l.reverse.dropWhile (fun c => c == '_')).reverse

/-- `_get_name`: the canonical group name of a unit.  Non-tuples (groups) and
variadic pairs map to the marker; a parameter name drops its last character,
everything from its last underscore on, and trailing underscores. -/
def get_name : Item → PyStr
  | .param n _ => rstrip_underscore (rsplit1_head '_' n.dropLast)
  | _ => "...".toList

/-- Failure modes of the script, one per distinct Python exception site. -/
inductive Err where
  | emptyEllipsis   -- `assert res` in `_fix_param`
  | dotsName        -- `assert param != '...'` in `_fix_param_name`
  | typeErr         -- IndexError / AttributeError
  | unpackErr       -- ValueError from tuple unpacking in `_raw_parse`
  | hookAssert      -- assertion inside a hook
  | outOfFuel       -- fuel exhaustion (never reached with the standard fuel)
deriving DecidableEq, Repr

/-- The value `_fix_param_name` computes before its assertion. -/
def fix_param_name_val (s : PyStr) : PyStr :=
  aliases (replace_space (strip_angle (strip (lower s))))

/-- `_fix_param_name`: normalize a declared parameter name. -/
def fix_param_name (s : PyStr) : Except Err PyStr :=
  if fix_param_name_val s = "...".toList then .error .dotsName
  else .ok (fix_param_name_val s)

/-- `_fix_param` on a comma-free string: normalize and classify. -/
def fix_param_plain (s : PyStr) : Except Err Item :=
  match fix_param_name s with
  | .error e => .error e
  | .ok n => .ok (.param n (known n))

/-- Python truthiness of a unit (`last and ...` in the workaround guard):
an empty list is falsy, tuples are always truthy. -/
def item_truthy : Item → Bool
  | .group items => !items.isEmpty
  | _ => true

/-- The workaround guard of `_fix_param`, evaluated with Python's
short-circuiting; accessing `u[0][0].endswith` on a non-parameter first
element raises (AttributeError / IndexError), modelled as `typeErr`.
`res1` is the list after popping `last`. -/
def combine_guard (res1 : List Item) (last : Item) : Except Err Bool :=
  if res1.isEmpty then .ok false
  else if !(item_truthy last) then .ok false
  else
    match last with
    | .group (Item.param n _ :: _) =>
      if n.getLast? = some '2' then
        match res1.getLast? with
        | some (.group items2) =>
          match items2 with
          | [] => .ok false
          | Item.param m _ :: _ => .ok (decide (m.getLast? = some '1'))
          | _ :: _ => .error .typeErr
        | _ => .ok false
      else .ok false
    | .group (_ :: _) => .error .typeErr
    | _ => .ok false

/-- `while res and _get_name(res[-1]) == name: res.pop()`. -/
def pop_matching (name : PyStr) (res : List Item) : List Item :=
  (res.reverse.dropWhile (fun it => decide (get_name it = name))).reverse

/-- The `p == '...'` branch of `_fix_param` after `assert res`: pop the seed,
apply the numbered-duplicate workaround, and either finish with a variadic
tail directly (`inl`) or request a reparse of the singular name (`inr`). -/
def combine_step (res : List Item) : Except Err ((List Item) ⊕ (List Item × PyStr)) :=
  match res.getLast? with
  | none => .error .emptyEllipsis
  | some last =>
    let res1 := res.dropLast
    match combine_guard res1 last with
    | .error e => .error e
    | .ok true =>
      match res1.getLast? with
      | some (.group (Item.param m ty :: grest)) =>
        .ok (.inl (res1.dropLast ++
          [Item.variadic (Item.group (Item.param (m.dropLast.dropLast) ty :: grest))]))
      | _ => .error .typeErr
    | .ok false =>
      let name := get_name last
      if name = "...".toList then .ok (.inl (res1 ++ [Item.variadic last]))
      else .ok (.inr (pop_matching name res1, name))

/-- First index at which `sep` occurs as a contiguous substring. -/
def find_sub (sep : PyStr) : PyStr → Option Nat
  | [] => if sep.isPrefixOf ([] : PyStr) then some 0 else none
  | c :: rest =>
    if sep.isPrefixOf (c :: rest) then some 0
    else (find_sub sep rest).map (· + 1)

/-- Python `l.split(sep)` (full split on a non-empty separator), with fuel. -/
def split_sub_fuel : Nat → PyStr → PyStr → List PyStr
  | 0, _, l => [l]
  | fuel + 1, sep, l =>
    match find_sub sep l with
    | none => [l]
    | some i => l.take i :: split_sub_fuel fuel sep (l.drop (i + sep.length))

/-- Python `l.split(sep)`. -/
def split_sub (sep l : PyStr) : List PyStr := split_sub_fuel (l.length + 1) sep l

/-- The loop of `_fix_param` over a token list, with accumulator `res` (the
already-parsed units) and fuel for the nested reparses.  One fuel unit is
consumed per token and per nested token list, so any fuel at least
`total characters + token count` suffices. -/
def fix_param_tokens : Nat → List PyStr → List Item → Except Err (List Item)
  | 0, _, _ => .error .outOfFuel
  | _ + 1, [], res => .ok res
  | fuel + 1, p0 :: ps, res =>
    let p := strip p0
    if p = "...".toList then
      if res.isEmpty then .error .emptyEllipsis
      else
        match combine_step res with
        | .error e => .error e
        | .ok (.inl res2) => .ok res2
        | .ok (.inr (res2, name)) =>
          if (',' : Char) ∈ name then
            match fix_param_tokens fuel (split_sub [','] name) [] with
            | .error e => .error e
            | .ok items => .ok (res2 ++ [Item.variadic (Item.group items)])
          else
            match fix_param_plain name with
            | .error e => .error e
            | .ok it => .ok (res2 ++ [Item.variadic it])
    else
      if (',' : Char) ∈ p then
        match fix_param_tokens fuel (split_sub [','] p) [] with
        | .error e => .error e
        | .ok items => fix_param_tokens fuel ps (res ++ [Item.group items])
      else
        match fix_param_plain p with
        | .error e => .error e
        | .ok it => fix_param_tokens fuel ps (res ++ [it])

/-- Generous fuel for a top-level token list. -/
def fix_fuel (tokens : List PyStr) : Nat :=
  tokens.foldl (fun a t => a + t.length) 0 + tokens.length + 4

/-- `_fix_param` applied to an already-semicolon-split token list. -/
def fix_param (tokens : List PyStr) : Except Err (List Item) :=
  fix_param_tokens (fix_fuel tokens) tokens []

/-- `_background9_hook`: asserts the trailing `('middle', 'string')` parameter
and yields three deep-copied snapshots of the progressively extended group. -/
def background9_hook (params : List Item) : Except Err (List (List Item)) :=
  match params.getLast? with
  | none => .error .typeErr
  | some last =>
    if last = Item.param "middle".toList .string then
      let base := params.dropLast
      .ok [ base ++ [Item.group [Item.param "middle_x".toList .number]],
            base ++ [Item.group [Item.param "middle_x".toList .number,
                                 Item.param "middle_y".toList .number]],
            base ++ [Item.group [Item.param "middle_x".toList .number,
                                 Item.param "middle_y".toList .number,
                                 Item.param "middle_x2".toList .number,
                                 Item.param "middle_y2".toList .number]] ]
    else .error .hookAssert

/-- `_bgcolor_hook`: the full shape, then `params[:-i]` for `i` in
`range(1, len(params))`. -/
def bgcolor_hook (params : List Item) : List (List Item) :=
  params :: (List.range (params.length - 1)).map
    (fun i => params.take (params.length - (i + 1)))

/-- `_size_hook`: the original shape, then the fixed one-group shape. -/
def size_hook (params : List Item) : List (List Item) :=
  [params, [Item.group [Item.param "w".toList .number, Item.param "h".toList .number]]]

/-- `_style_hook` (registered for `style` and `style_type`): rewrites the
leading unit to a one-name group, yields, rewrites it to a repeatable
selectors group, yields again.  `params[0]` on an empty list raises. -/
def style_hook (params : List Item) : Except Err (List (List Item)) :=
  match params with
  | [] => .error .typeErr
  | _ :: rest =>
    .ok [Item.group [Item.param "name".toList .string] :: rest,
         Item.group [Item.variadic (Item.param "selectors".toList .string)] :: rest]

/-- `_scroll_container_hook` (registered for `dropdown`, passive): rewrites
`params[1]` in place depending on whether it is a bare parameter, and yields
nothing.  Returns the mutated parameter list. -/
def scroll_container_hook (params : List Item) : Except Err (List (List Item) × List Item) :=
  match params with
  | p0 :: p1 :: rest =>
    match p1 with
    | .param _ _ =>
      .ok ([], p0 :: Item.group [Item.param "w".toList .number,
                                 Item.param "h".toList .number] :: rest)
    | .group [] => .error .typeErr
    | _ => .ok ([], p0 :: Item.param "w".toList .number :: rest)
  | _ => .error .typeErr

/-- `_textlist_hook` (passive): yields the 5-parameter truncation when the
shape is longer, and leaves the parameter list unchanged. -/
def textlist_hook (params : List Item) : List (List Item) × List Item :=
  (if params.length > 5 then [params.take 5] else [], params)

/-- `_model_hook`: three asserted in-place fixes, then every prefix shape
from position 5 onward. -/
def model_hook (params : List Item) : Except Err (List (List Item)) :=
  match params[4]? with
  | none => .error .typeErr
  | some it4 =>
    if it4 = Item.param "textures".toList .string then
      let p1 := params.set 4 (Item.group [Item.variadic (Item.param "textures".toList .string)])
      match p1[5]? with
      | none => .error .typeErr
      | some it5 =>
        if it5 = Item.group [Item.param "rotation_x".toList .string,
                             Item.param "y".toList .number] then
          let p2 := p1.set 5 (Item.group [Item.param "rotation_x".toList .number,
                                          Item.param "rotation_y".toList .number])
          match p2[8]? with
          | none => .error .typeErr
          | some it8 =>
            if it8 = Item.param "frame_loop_range".toList .string then
              let p3 := p2.set 8 (Item.group [Item.param "frame_loop_begin".toList .number,
                                              Item.param "frame_loop_end".toList .number])
              .ok ((List.range (p3.length + 1 - 5)).map (fun i => p3.take (5 + i)))
            else .error .hookAssert
        else .error .hookAssert
    else .error .hookAssert

/-- The `_hooks` registry: the deep-copied snapshots a hook yields for the
given shape, together with the (possibly mutated) parameter list that passive
processing continues with. -/
def run_hook (name : PyStr) (params : List Item) :
    Option (Except Err (List (List Item) × List Item)) :=
  if name = "background9".toList then
    some ((background9_hook params).map (fun ys => (ys, params)))
  else if name = "bgcolor".toList then some (.ok (bgcolor_hook params, params))
  else if name = "size".toList then some (.ok (size_hook params, params))
  else if name = "style".toList ∨ name = "style_type".toList then
    some ((style_hook params).map (fun ys => (ys, params)))
  else if name = "dropdown".toList then some (scroll_container_hook params)
  else if name = "textlist".toList then some (.ok (textlist_hook params))
  else if name = "model".toList then
    some ((model_hook params).map (fun ys => (ys, params)))
  else none

/-- The `_passive_hooks` set. -/
def passive_hook (name : PyStr) : Bool :=
  decide (name = "dropdown".toList) || decide (name = "textlist".toList)

/-- The `:? ` tail of `_param_re` at the given position (with the regex
engine's backtracking over the optional colon). -/
def re_tail : PyStr → Bool
  | ' ' :: _ => true
  | ':' :: ' ' :: _ => true
  | _ => false

/-- `_param_re.match(line)`: backtick-delimited first group, an optional
`` and `...` `` second group, an optional colon, and a space. -/
def param_re_match (line : PyStr) : Option (PyStr × Option PyStr) :=
  match line with
  | '*' :: ' ' :: '`' :: rest =>
    let s1 := rest.takeWhile (fun c => c != '`')
    let r1 := rest.dropWhile (fun c => c != '`')
    if s1.isEmpty then none
    else
      match r1 with
      | '`' :: r2 =>
        match r2 with
        | ' ' :: 'a' :: 'n' :: 'd' :: ' ' :: '`' :: r3 =>
          let s2 := r3.takeWhile (fun c => c != '`')
          let r4 := r3.dropWhile (fun c => c != '`')
          if !s2.isEmpty then
            match r4 with
            | '`' :: r5 =>
              if re_tail r5 then some (s1, some s2)
              else if re_tail r2 then some (s1, none) else none
            | _ => if re_tail r2 then some (s1, none) else none
          else if re_tail r2 then some (s1, none) else none
        | _ => if re_tail r2 then some (s1, none) else none
      | _ => none
  | _ => none

/-- Scan of the description lines for optional parameters: a line whose
lowercase form contains "optional" and that matches `_param_re` contributes
its normalized captured names. -/
def scan_optional : List PyStr → List PyStr → Except Err (List PyStr)
  | [], acc => .ok acc
  | line :: rest, acc =>
    match param_re_match line with
    | none => scan_optional rest acc
    | some (g1, g2) =>
      if (find_sub "optional".toList (lower line)).isSome then
        match fix_param_name g1 with
        | .error e => .error e
        | .ok n1 =>
          match g2 with
          | none => scan_optional rest (acc ++ [n1])
          | some g2v =>
            match fix_param_name g2v with
            | .error e => .error e
            | .ok n2 => scan_optional rest (acc ++ [n1, n2])
      else scan_optional rest acc

/-- The loop condition of the optional-parameter expansion in `_raw_parse`:
the trailing unit is a bare parameter tuple whose name is in the optional
set. -/
def last_is_optional (opt : List PyStr) (params : List Item) : Bool :=
  match params.getLast? with
  | some (.param n _) => decide (n ∈ opt)
  | _ => false

/-- The optional-parameter expansion loop, fuelled (the fuel equals the
number of removable trailing parameters left, so `params.length` always
suffices). -/
def expand_optional_aux (opt : List PyStr) : Nat → List Item → List (List Item)
  | 0, params => [params]
  | fuel + 1, params =>
    if last_is_optional opt params then
      params :: expand_optional_aux opt fuel params.dropLast
    else [params]

/-- The Optional-Suffix Expander of `_raw_parse` (the `while True` loop):
the list of shapes it yields for one element. -/
def expand_optional (opt : List PyStr) (params : List Item) : List (List Item) :=
  expand_optional_aux opt params.length params

/-- Processing of one `### `-record of the elements section: the list of
`(name, shape)` pairs `_raw_parse` yields for it. -/
def record_yields (elem_data : PyStr) : Except Err (List (PyStr × List Item)) :=
  match split_sub ['\n'] elem_data with
  | [] => .ok []
  | raw_elem :: lines =>
    if raw_elem.head? = some '`' ∧ raw_elem.getLast? = some '`' then
      let core := (raw_elem.drop 1).dropLast.dropLast
      match find_sub ['['] core with
      | none => .error .unpackErr
      | some i =>
        let name := core.take i
        let params_str := core.drop (i + 1)
        match (if params_str.isEmpty then Except.ok ([] : List Item)
               else fix_param (split_sub [';'] params_str)) with
        | .error e => .error e
        | .ok params0 =>
          match run_hook name params0 with
          | some hres =>
            match hres with
            | .error e => .error e
            | .ok (snaps, params1) =>
              let hook_pairs := snaps.reverse.map (fun p => (name, p))
              if passive_hook name then
                match scan_optional lines [] with
                | .error e => .error e
                | .ok opt =>
                  .ok (hook_pairs ++ (expand_optional opt params1).map (fun p => (name, p)))
              else .ok hook_pairs
          | none =>
            match scan_optional lines [] with
            | .error e => .error e
            | .ok opt => .ok ((expand_optional opt params0).map (fun p => (name, p)))
    else .ok []

/-- All records in order, concatenating their yields (the generator raises at
the first failing record). -/
def records_yields : List PyStr → Except Err (List (PyStr × List Item))
  | [] => .ok []
  | r :: rs =>
    match record_yields r with
    | .error e => .error e
    | .ok ys =>
      match records_yields rs with
      | .error e => .error e
      | .ok rest => .ok (ys ++ rest)

/-- The fixed elements-section heading marker. -/
def elements_marker : PyStr := "\nElements\n--------\n".toList

/-- Python `data.split(sep, 1)[-1]`: the text after the first occurrence of
`sep`, or the whole text when `sep` does not occur. -/
def split_once_after (sep l : PyStr) : PyStr :=
  match find_sub sep l with
  | none => l
  | some i => l.drop (i + sep.length)

/-- Python `data.split(sep, 1)[0]`. -/
def split_once_before (sep l : PyStr) : PyStr :=
  match find_sub sep l with
  | none => l
  | some i => l.take i

/-- `_raw_parse` from the already-located section text onward: cut at the
next heading underline, drop the heading's title line, and process each
`### `-record. -/
def raw_parse_section (data1 : PyStr) : Except Err (List (PyStr × List Item)) :=
  let data2 := split_once_before "\n----".toList data1
  let data3 := rsplit1_head '\n' data2
  records_yields (split_sub "\n### ".toList data3)

/-- `_raw_parse`: all `(element name, shape)` pairs yielded for a document. -/
def raw_parse (data : PyStr) : Except Err (List (PyStr × List Item)) :=
  raw_parse_section (split_once_after elements_marker data)

/-- Append one yielded shape under its element name, keeping first-seen key
order (Python dict semantics in `parse`). -/
def add_pair (res : List (PyStr × List (List Item))) (k : PyStr) (v : List Item) :
    List (PyStr × List (List Item)) :=
  match res with
  | [] => [(k, [v])]
  | (k2, vs) :: rest =>
    if k2 = k then (k2, vs ++ [v]) :: rest else (k2, vs) :: add_pair rest k v

/-- Group the yielded pairs by element name. -/
def parse_pairs (pairs : List (PyStr × List Item)) : List (PyStr × List (List Item)) :=
  pairs.foldl (fun res kv => add_pair res kv.1 kv.2) []

/-- Stable insertion keeping longer shapes first: an incoming earlier shape
goes in front of every later shape that is not strictly longer.  This is the
unique stable descending-length order, hence Python's
`v.sort(key=len, reverse=True)`. -/
def insert_desc (a : List Item) : List (List Item) → List (List Item)
  | [] => [a]
  | b :: bs => if b.length > a.length then b :: insert_desc a bs else a :: b :: bs

/-- Stable sort by descending shape length. -/
def sort_desc (l : List (List Item)) : List (List Item) := l.foldr insert_desc []

/-- `parse`: the final element table. -/
def parse (data : PyStr) : Except Err (List (PyStr × List (List Item))) :=
  match raw_parse data with
  | .error e => .error e
  | .ok pairs => .ok ((parse_pairs pairs).map (fun kv => (kv.1, sort_desc kv.2)))

def doc_c1 : PyStr := "\nElements\n--------\n\n### `label[x,y;label]`\nNext\n----\n".toList
def doc_c3 : PyStr := "\n### `label[x,y;label]`\nNext\n----\n".toList
def doc_c5 : PyStr := "\nElements\n--------\n\n### `size[<W>,<H>,<fixed_size>]`\nNext\n----\n".toList
def doc_c8 : PyStr := "\nElements\n--------\n\n### `style[sel;prop]`\nNext\n----\n".toList


/-- The shape `_fix_param` produces for the label signature `x,y;label`:
the comma pair becomes one group, the third field a flat string parameter. -/
def label_shape : List Item :=
  [Item.group [Item.param "x".toList .number, Item.param "y".toList .number],
   Item.param "label".toList .string]

/-- C1 (amended): parsing the minimal synthetic document with the single
record `label[x,y;label]` yields one shape for "label" consisting of the
Group `[(x,number),(y,number)]` followed by the flat Parameter
`(label,string)` — not three flat parameters: a comma-joined field stays one
group. -/
theorem c1_theorem : parse doc_c1 = .ok [("label".toList, [label_shape])] := by decide

/-- C1 counterexample: the claimed table, whose single shape is the three
flat Parameters `(x,number),(y,number),(label,string)`, is not what `parse`
returns for the minimal document. -/
theorem c1_counterexample :
    parse doc_c1 ≠ .ok [("label".toList,
      [[Item.param "x".toList .number, Item.param "y".toList .number,
        Item.param "label".toList .string]])] := by decide

/-- C2 (amended): parsing the repeating-pair shorthand `x1,y1;x2,y2;...`
yields the single-element shape
`[VariadicTail(Group[("",string),(y1,string)])]`: the `x2,y2` group is
discarded, the `x1,y1` group becomes the repeating unit with the final two
characters of its first parameter's name cut off (`x1` → `""`), and the
types stay as originally classified (`string`, since `x1`/`y1` are not in
the number set). -/
theorem c2_theorem : fix_param ["x1,y1".toList, "x2,y2".toList, "...".toList] =
    .ok [Item.variadic (Item.group
      [Item.param [] .string, Item.param "y1".toList .string])] := by decide

/-- C2 counterexample: the claimed collapse to
`[VariadicTail(Group[(x,number),(y,number)])]` is not what `_fix_param`
returns for `x1,y1;x2,y2;...`. -/
theorem c2_counterexample : fix_param ["x1,y1".toList, "x2,y2".toList, "...".toList] ≠
    .ok [Item.variadic (Item.group
      [Item.param "x".toList .number, Item.param "y".toList .number])] := by decide

/-- C3 (amended): when the elements-section heading marker is absent, the
extractor does not fail; `split(marker, 1)[-1]` falls back to the whole
document, so the run behaves exactly as if the entire document were the
section. -/
theorem c3_theorem : ∀ doc : PyStr, find_sub elements_marker doc = none →
    raw_parse doc = raw_parse_section doc := by
  intro doc h
  unfold raw_parse split_once_after
  rw [h]

/-- Witness for C3: a concrete document without the marker. -/
theorem c3_witness : find_sub elements_marker "hi".toList = none ∧
    raw_parse "hi".toList = raw_parse_section "hi".toList :=
  ⟨by decide, c3_theorem "hi".toList (by decide)⟩

/-- C3 counterexample: a document lacking the heading marker on which the
whole parse run nevertheless succeeds and produces (non-partial, non-empty)
output, refuting both the claimed fatal section-not-found error and the
claimed absence of output. -/
theorem c3_counterexample :
    find_sub elements_marker doc_c3 = none ∧
    parse doc_c3 = .ok [("label".toList, [label_shape])] := by decide

/-- C5 (amended): for the element `size` exactly two shapes are produced:
the fixed alternate shape `[Group[(w,number),(h,number)]]` — a single Group,
not two flat parameters — followed by the original grammar-parsed shape
`[Group[(w,number),(h,number),(fixed_size,boolean)]]` (both have length 1,
and the stable sort keeps the reversed yield order). -/
theorem c5_theorem : parse doc_c5 = .ok [("size".toList,
    [[Item.group [Item.param "w".toList .number, Item.param "h".toList .number]],
     [Item.group [Item.param "w".toList .number, Item.param "h".toList .number,
                  Item.param "fixed_size".toList .boolean]]])] := by decide

/-- C5 counterexample: the claimed pair of shapes — the original shape
together with the flat two-parameter shape `[(w,number),(h,number)]` — is
not the produced table in either order: the alternate `size` shape is a
single Group, not two flat parameters. -/
theorem c5_counterexample :
    parse doc_c5 ≠ .ok [("size".toList,
      [[Item.param "w".toList .number, Item.param "h".toList .number],
       [Item.group [Item.param "w".toList .number, Item.param "h".toList .number,
                    Item.param "fixed_size".toList .boolean]]]) ] ∧
    parse doc_c5 ≠ .ok [("size".toList,
      [[Item.group [Item.param "w".toList .number, Item.param "h".toList .number,
                    Item.param "fixed_size".toList .boolean]],
       [Item.param "w".toList .number, Item.param "h".toList .number]])] := by decide

/-- The first shape the style hook yields (`params[0]` rewritten to the
one-name group). -/
def style_first_yield : List Item :=
  [Item.group [Item.param "name".toList .string], Item.param "prop".toList .table]

/-- The second shape the style hook yields (`params[0]` rewritten to the
repeatable selectors group). -/
def style_second_yield : List Item :=
  [Item.group [Item.variadic (Item.param "selectors".toList .string)],
   Item.param "prop".toList .table]

/-- C8 (amended): hook-yielded shapes are emitted in reverse yield order and
never re-reversed; the descending-length sort is stable, so two equal-length
variants of an exclusive hook end up in reverse declared order.  For a
document with `style[sel;prop]`, the second-yielded selectors variant
precedes the first-yielded name variant in the final table. -/
theorem c8_theorem : parse doc_c8 =
    .ok [("style".toList, [style_second_yield, style_first_yield])] := by decide

/-- C8 counterexample: the claimed order — first-yielded variant before the
second-yielded one — is not the produced table for `style[sel;prop]`. -/
theorem c8_counterexample : parse doc_c8 ≠
    .ok [("style".toList, [style_first_yield, style_second_yield])] := by decide

/-- C7 counterexample: a non-empty one-parameter shape whose parameter is in
the optional set: the expansion yields the empty shape for it. -/
theorem c7_counterexample :
    (([Item.param "h".toList .number] : List Item) ≠ []) ∧
    [] ∈ expand_optional ["h".toList] [Item.param "h".toList .number] := by decide

/-- A unit is a bare parameter whose name is in the optional set. -/
def is_opt_param (opt : List PyStr) : Item → Bool
  | .param n _ => decide (n ∈ opt)
  | _ => false

theorem expand_aux_head (opt : List PyStr) (fuel : Nat) (params : List Item) :
    (expand_optional_aux opt fuel params).head? = some params := by
  cases fuel with
  | zero => rfl
  | succ n =>
    unfold expand_optional_aux
    split <;> rfl

theorem expand_aux_ne_nil (opt : List PyStr) (fuel : Nat) (params : List Item) :
    expand_optional_aux opt fuel params ≠ [] := by
  cases fuel with
  | zero => simp [expand_optional_aux]
  | succ n =>
    unfold expand_optional_aux
    split <;> simp

theorem last_is_optional_spec {opt : List PyStr} {params : List Item}
    (h : last_is_optional opt params = true) :
    ∃ n ty, params.getLast? = some (Item.param n ty) ∧ n ∈ opt := by
  unfold last_is_optional at h
  split at h
  · next n ty heq =>
    exact ⟨n, ty, heq, of_decide_eq_true h⟩
  · exact absurd h (by simp)

theorem last_is_optional_ne_nil {opt : List PyStr} {params : List Item}
    (h : last_is_optional opt params = true) : params ≠ [] := by
  obtain ⟨n, ty, heq, -⟩ := last_is_optional_spec h
  intro hnil
  rw [hnil] at heq
  exact Option.noConfusion heq

theorem expand_aux_chain (opt : List PyStr) (fuel : Nat) :
    ∀ params : List Item,
    List.Chain' (fun a b => (∃ n ty, a.getLast? = some (Item.param n ty) ∧ n ∈ opt) ∧
      b = a.dropLast) (expand_optional_aux opt fuel params) := by
  induction fuel with
  | zero => intro params; simp [expand_optional_aux]
  | succ m ih =>
    intro params
    unfold expand_optional_aux
    split
    · next hopt =>
      rw [List.chain'_cons']
      refine ⟨?_, ih params.dropLast⟩
      intro y hy
      rw [expand_aux_head] at hy
      cases hy
      exact ⟨last_is_optional_spec hopt, rfl⟩
    · simp

theorem expand_aux_stop (opt : List PyStr) (fuel : Nat) :
    ∀ params : List Item, params.length ≤ fuel →
    ∃ l, (expand_optional_aux opt fuel params).getLast? = some l ∧
      last_is_optional opt l = false := by
  induction fuel with
  | zero =>
    intro params hlen
    have : params = [] := List.length_eq_zero.mp (Nat.le_zero.mp hlen)
    subst this
    exact ⟨[], rfl, rfl⟩
  | succ m ih =>
    intro params hlen
    unfold expand_optional_aux
    split
    · next hopt =>
      have hne : params ≠ [] := last_is_optional_ne_nil hopt
      have hlen2 : params.dropLast.length ≤ m := by
        rw [List.length_dropLast]
        have := List.length_pos.mpr hne
        omega
      obtain ⟨l, hl, hno⟩ := ih params.dropLast hlen2
      refine ⟨l, ?_, hno⟩
      obtain ⟨r, rs, hrw⟩ := List.exists_cons_of_ne_nil (expand_aux_ne_nil opt m params.dropLast)
      rw [hrw, List.getLast?_cons_cons, ← hrw, hl]
    · next hopt =>
      exact ⟨params, rfl, Bool.not_eq_true _ ▸ Bool.of_not_eq_true hopt⟩

/-- C6: the Optional-Suffix Expander yields the full input shape first and
unchanged; each later shape is the previous one with exactly its trailing
element removed, that element being a bare Parameter whose name is in the
optional set (so a Group or VariadicTail is never removed); and the last
yielded shape is the first whose trailing element is not such an optional
bare Parameter. -/
theorem c6_theorem (opt : List PyStr) (params : List Item) :
    (expand_optional opt params).head? = some params ∧
    List.Chain' (fun a b => (∃ n ty, a.getLast? = some (Item.param n ty) ∧ n ∈ opt) ∧
      b = a.dropLast) (expand_optional opt params) ∧
    ∃ l, (expand_optional opt params).getLast? = some l ∧
      last_is_optional opt l = false :=
  ⟨expand_aux_head opt params.length params,
   expand_aux_chain opt params.length params,
   expand_aux_stop opt params.length params (Nat.le_refl _)⟩

theorem expand_aux_nil_mem (opt : List PyStr) (fuel : Nat) :
    ∀ params : List Item, params.length ≤ fuel →
    ([] ∈ expand_optional_aux opt fuel params ↔ params.all (is_opt_param opt) = true) := by
  induction fuel with
  | zero =>
    intro params hlen
    have : params = [] := List.length_eq_zero.mp (Nat.le_zero.mp hlen)
    subst this
    simp [expand_optional_aux]
  | succ m ih =>
    intro params hlen
    unfold expand_optional_aux
    split
    · next hopt =>
      have hne : params ≠ [] := last_is_optional_ne_nil hopt
      have hlen2 : params.dropLast.length ≤ m := by
        rw [List.length_dropLast]
        have := List.length_pos.mpr hne
        omega
      rw [List.mem_cons, ih params.dropLast hlen2]
      obtain ⟨n, ty, heq, hmem⟩ := last_is_optional_spec hopt
      constructor
      · intro h
        rcases h with h | h
        · exact absurd h.symm hne
        · rw [← List.dropLast_append_getLast hne, List.all_append]
          have hlast : params.getLast hne = Item.param n ty := by
            have := List.getLast?_eq_getLast_of_ne_nil hne
            rw [heq] at this
            exact (Option.some.injEq _ _ ▸ this.symm :)
          simp [h, hlast, is_opt_param, hmem]
      · intro h
        right
        rw [← List.dropLast_append_getLast hne, List.all_append] at h
        exact (Bool.and_eq_true _ _ ▸ h).1
    · next hopt =>
      have hopt2 : last_is_optional opt params = false := Bool.of_not_eq_true hopt
      rw [List.mem_singleton]
      constructor
      · intro h
        rw [← h]
        rfl
      · intro h
        by_contra hne2
        have hne : params ≠ [] := fun hh => hne2 hh.symm
        have hlast := List.getLast?_eq_getLast_of_ne_nil hne
        have hmem := List.getLast_mem hne
        have := List.all_eq_true.mp h _ hmem
        unfold last_is_optional at hopt2
        rw [hlast] at hopt2
        cases hg : params.getLast hne with
        | param n ty => rw [hg] at hopt2 this; simp [is_opt_param] at this; simp [this] at hopt2
        | group items => rw [hg] at this; exact Bool.noConfusion this
        | variadic u => rw [hg] at this; exact Bool.noConfusion this

/-- C7 (amended): the Optional-Suffix Expander yields an empty shape exactly
when every element of the input shape is a bare Parameter whose name is in
the optional set — in particular it does yield an empty shape for such a
non-empty input (the claimed "never empty for non-empty input" fails). -/
theorem c7_theorem (opt : List PyStr) (params : List Item) :
    [] ∈ expand_optional opt params ↔ params.all (is_opt_param opt) = true :=
  expand_aux_nil_mem opt params.length params (Nat.le_refl _)

/-- C4 (amended): for a non-empty grammar-parsed `bgcolor` shape with `n`
parameters, the hook yields exactly `n` variants (not `n + 1`): the full
shape first, then `params[:-i]` for `i` from 1 to `n - 1`; the empty
truncation is never yielded.  The `i`-th yielded variant (0-based) is the
shape with its last `i` parameters removed. -/
theorem c4_theorem (params : List Item) (hne : params ≠ []) :
    (bgcolor_hook params).length = params.length ∧
    ∀ (i : Nat) (h : i < (bgcolor_hook params).length),
      (bgcolor_hook params).get ⟨i, h⟩ = params.take (params.length - i) := by
  have hpos : 0 < params.length := List.length_pos.mpr hne
  constructor
  · simp only [bgcolor_hook, List.length_cons, List.length_map, List.length_range]
    omega
  · intro i h
    cases i with
    | zero => simp [bgcolor_hook]
    | succ j =>
      have hj : j < params.length - 1 := by
        simp only [bgcolor_hook, List.length_cons, List.length_map, List.length_range] at h
        omega
      simp only [bgcolor_hook, List.get_eq_getElem, List.getElem_cons_succ]
      rw [List.getElem_map, List.getElem_range]

/-- The grammar-parsed shape of the real `bgcolor[<bgcolor>;<fullscreen>;<fbgcolor>]`
signature. -/
def bg_params : List Item :=
  [Item.param "bgcolor".toList .string, Item.param "fullscreen".toList .fullscreen,
   Item.param "fbgcolor".toList .string]

/-- Witness for C4 at the real three-parameter bgcolor shape. -/
theorem c4_witness : (bgcolor_hook bg_params).length = 3 :=
  ((c4_theorem bg_params (by decide)).1).trans (by decide)

/-- C4 counterexample: for the real three-parameter bgcolor shape the hook
yields 3 variants, not the claimed 3 + 1. -/
theorem c4_counterexample : (bgcolor_hook bg_params).length ≠ bg_params.length + 1 := by
  decide

/-- C10: the classifier maps the empty normalized name to `null`; the empty
name is the only name mapped to `null`; and every non-empty name absent from
the number/boolean/fullscreen/table sets classifies as the generic `string`
type. -/
theorem c10_theorem :
    known [] = PType.null ∧
    (∀ n : PyStr, known n = PType.null ↔ n = []) ∧
    (∀ n : PyStr, n ∉ number_names → n ∉ boolean_names → n ∉ fullscreen_names →
      n ∉ table_names → n ≠ [] → known n = PType.string) := by
  refine ⟨by decide, ?_, ?_⟩
  · intro n
    unfold known
    split_ifs with h1 h2 h3 h4 h5
    · constructor
      · intro hc; exact absurd hc (by decide)
      · intro hc; subst hc; exact absurd h1 (by decide)
    · constructor
      · intro hc; exact absurd hc (by decide)
      · intro hc; subst hc; exact absurd h2 (by decide)
    · constructor
      · intro hc; exact absurd hc (by decide)
      · intro hc; subst hc; exact absurd h3 (by decide)
    · constructor
      · intro hc; exact absurd hc (by decide)
      · intro hc; subst hc; exact absurd h4 (by decide)
    · constructor
      · intro _; exact List.mem_singleton.mp h5
      · intro _; rfl
    · constructor
      · intro hc; exact absurd hc (by decide)
      · intro hc; subst hc; exact absurd (List.mem_singleton.mpr rfl) h5
  · intro n h1 h2 h3 h4 h5
    unfold known
    rw [if_neg h1, if_neg h2, if_neg h3, if_neg h4]
    simp [null_names, h5]

/-- Witness for C10: an unknown non-empty name classifies as string. -/
theorem c10_witness : known "foo".toList = PType.string :=
  c10_theorem.2.2 "foo".toList (by decide) (by decide) (by decide) (by decide) (by decide)

/-- A unit whose parameter name (if any) contains no comma — true of every
unit the parser itself produces, since parameter names come from comma-free
sub-tokens. -/
def item_comma_free : Item → Bool
  | .param n _ => decide ((',' : Char) ∉ n)
  | _ => true

theorem mem_of_mem_rstrip_underscore {c : Char} {l : PyStr}
    (h : c ∈ rstrip_underscore l) : c ∈ l := by
  unfold rstrip_underscore at h
  rw [List.mem_reverse] at h
  exact List.mem_reverse.mp (List.Sublist.mem h (List.dropWhile_sublist _))

theorem mem_of_mem_rsplit1_head {c sep : Char} {l : PyStr}
    (h : c ∈ rsplit1_head sep l) : c ∈ l := by
  unfold rsplit1_head at h
  split at h
  · exact h
  · next hd rest heq =>
    rw [List.mem_reverse] at h
    have h2 : c ∈ hd :: rest := List.mem_cons_of_mem _ h
    rw [← heq] at h2
    exact List.mem_reverse.mp (List.Sublist.mem h2 (List.dropWhile_sublist _))

theorem mem_of_mem_get_name {c : Char} {n : PyStr} {ty : PType}
    (h : c ∈ get_name (Item.param n ty)) : c ∈ n := by
  unfold get_name at h
  exact List.Sublist.mem
    (mem_of_mem_rsplit1_head (mem_of_mem_rstrip_underscore h))
    (List.dropLast_sublist n)

theorem combine_guard_err (res1 : List Item) (last : Item) (e : Err)
    (h : combine_guard res1 last = .error e) : e = .typeErr := by
  unfold combine_guard at h
  repeat' split at h
  all_goals first
  | exact Except.noConfusion h
  | (cases h; rfl)

theorem fix_param_plain_err (s : PyStr) (e : Err)
    (h : fix_param_plain s = .error e) : e = .dotsName := by
  unfold fix_param_plain at h
  cases hn : fix_param_name s with
  | error e2 =>
    simp only [hn] at h
    cases h
    unfold fix_param_name at hn
    split at hn
    · cases hn; rfl
    · exact Except.noConfusion hn
    
  | ok n =>
    simp only [hn] at h
    exact Except.noConfusion h

theorem combine_step_err (res : List Item) (hne : res ≠ []) (e : Err)
    (h : combine_step res = .error e) : e = .typeErr := by
  have hl : res.getLast? = some (res.getLast hne) :=
    List.getLast?_eq_getLast_of_ne_nil hne
  unfold combine_step at h
  simp only [hl] at h
  cases hg : combine_guard res.dropLast (res.getLast hne) with
  | error ge =>
    simp only [hg] at h
    cases h
    exact combine_guard_err _ _ _ hg
  | ok b =>
    simp only [hg] at h
    cases b
    · simp only [] at h
      split at h <;> exact Except.noConfusion h
    · simp only [] at h
      split at h
      · exact Except.noConfusion h
      · cases h; rfl

theorem combine_step_inr_name (res : List Item)
    (hcf : res.all item_comma_free = true) (res2 : List Item) (name : PyStr)
    (h : combine_step res = .ok (.inr (res2, name))) : (',' : Char) ∉ name := by
  unfold combine_step at h
  cases hl : res.getLast? with
  | none => simp only [hl] at h; exact Except.noConfusion h
  | some last =>
    simp only [hl] at h
    cases hg : combine_guard res.dropLast last with
    | error ge => simp only [hg] at h; exact Except.noConfusion h
    | ok b =>
      simp only [hg] at h
      cases b
      · simp only [] at h
        split at h
        · simp at h
        · next hdots =>
          have hinj := Except.ok.inj h
          have hname : name = get_name last := (congrArg Prod.snd (Sum.inr.inj hinj)).symm
          obtain ⟨hne, hlg⟩ := List.mem_getLast?_eq_getLast (Option.mem_def.mpr hl)
          have hmem : last ∈ res := hlg ▸ List.getLast_mem hne
          have hcfl : item_comma_free last = true := List.all_eq_true.mp hcf _ hmem
          cases last with
          | param n ty =>
            have hcz : (',' : Char) ∉ n := of_decide_eq_true hcfl
            intro hc
            exact hcz (mem_of_mem_get_name (hname ▸ hc))
          | group items => exact absurd rfl hdots
          | variadic u => exact absurd rfl hdots
      · simp only [] at h
        split at h
        · simp at h
        · exact Except.noConfusion h

theorem fix_param_tokens_dots (fuel : Nat) (t : PyStr) (ts : List PyStr)
    (res : List Item) (h : strip t = "...".toList) :
    fix_param_tokens (fuel + 1) (t :: ts) res =
      if res.isEmpty then .error .emptyEllipsis
      else
        match combine_step res with
        | .error e => .error e
        | .ok (.inl res2) => .ok res2
        | .ok (.inr (res2, name)) =>
          if (',' : Char) ∈ name then
            match fix_param_tokens fuel (split_sub [','] name) [] with
            | .error e => .error e
            | .ok items => .ok (res2 ++ [Item.variadic (Item.group items)])
          else
            match fix_param_plain name with
            | .error e => .error e
            | .ok it => .ok (res2 ++ [Item.variadic it]) := by
  conv_lhs => rw [fix_param_tokens]
  simp only [h]
  rw [if_pos trivial]

/-- C9: a token list handed to the signature grammar parser whose first
token is the bare variadic marker fails with the empty-seed assertion
(`assert res`); when at least one already-parsed unit precedes the marker
(the accumulator `res` is non-empty — parser-built units always have
comma-free parameter names), that failure cannot occur, whatever else the
parse returns. -/
theorem c9_theorem (fuel : Nat) (t : PyStr) (ts : List PyStr)
    (h : strip t = "...".toList) :
    fix_param_tokens (fuel + 1) (t :: ts) [] = .error .emptyEllipsis ∧
    ∀ res : List Item, res ≠ [] → res.all item_comma_free = true →
      fix_param_tokens (fuel + 1) (t :: ts) res ≠ .error .emptyEllipsis := by
  constructor
  · rw [fix_param_tokens_dots fuel t ts [] h]
    rfl
  · intro res hne hcf hcontra
    rw [fix_param_tokens_dots fuel t ts res h] at hcontra
    have hie : res.isEmpty = false := by
      cases res with
      | nil => exact absurd rfl hne
      | cons a l => rfl
    rw [hie] at hcontra
    simp only [Bool.false_eq_true, if_false] at hcontra
    cases hcs : combine_step res with
    | error e =>
      simp only [hcs] at hcontra
      cases hcontra
      exact Err.noConfusion (combine_step_err res hne _ hcs)
    | ok v =>
      cases v with
      | inl r2 =>
        simp only [hcs] at hcontra
        exact Except.noConfusion hcontra
      | inr pr =>
        obtain ⟨r2, name⟩ := pr
        have hnm := combine_step_inr_name res hcf r2 name hcs
        simp only [hcs, if_neg hnm] at hcontra
        cases hp : fix_param_plain name with
        | error e =>
          simp only [hp] at hcontra
          cases hcontra
          exact Err.noConfusion (fix_param_plain_err name _ hp)
        | ok it =>
          simp only [hp] at hcontra
          exact Except.noConfusion hcontra

/-- Witness for C9: a bare leading marker fails; with one parsed unit in
front of the marker it does not fail with the empty-seed assertion. -/
theorem c9_witness :
    fix_param_tokens 6 ["...".toList] [] = .error .emptyEllipsis ∧
    fix_param_tokens 6 ["...".toList] [Item.param "x".toList .number] ≠
      .error .emptyEllipsis :=
  ⟨(c9_theorem 5 "...".toList [] (by decide)).1,
   (c9_theorem 5 "...".toList [] (by decide)).2 [Item.param "x".toList .number]
     (by decide) (by decide)⟩
